import Mathlib

/-
Formal model of the Retrieval-Augmented Context Engine of the
mini-task-botbuilder repository: a shallow embedding of
backend/services/vector_service.py (class VectorService) and
backend/services/rag_service.py (class RAGService), together with
theorems settling the specification claims about them.

Modelling conventions:
- float32 similarity scores are modelled over an arbitrary linear
  ordered commutative ring R (instantiated with Int in the concrete
  witnesses and counterexamples); real-number facts about the code
  do not depend on rounding, only on ring and order structure.
- The sentence-transformer embedding provider is an external
  collaborator; per the spec it is deterministic for identical input,
  so it is modelled as an arbitrary function encode : String -> List R.
- The FAISS IndexFlatIP object is modelled by the list of vectors it
  stores, in insertion order.  Its search method scores every stored
  vector by inner product against the query and returns the best
  search_k (score, position) pairs in descending score order; FAISS
  keeps ties in insertion-position order, which is modelled by a
  stable insertion sort on a relation comparing scores only.
  Since the code always calls search with search_k <= ntotal, no -1
  padding positions arise, and none are modelled.
- Disk persistence (_save_index / _load_or_create_index) does not
  change the in-memory state being modelled; a failed save is caught
  and logged inside _save_index (vector_service.py lines 132-140).
- Python exceptions never escape the modelled operations (each has a
  blanket try/except returning a typed default); the model therefore
  consists of total functions, and the places where an exception path
  is reachable are modelled explicitly (see rebuild below and
  manage_context_length in the RAG part).
-/

/-- One metadata record, as built by add_conversation_embeddings
(vector_service.py lines 162-168).  Timestamps are opaque here. -/
structure Meta where
  conversation_id : String
  message_id : String
  role : String
  content_preview : String
  timestamp : String
deriving DecidableEq

instance : Inhabited Meta := ⟨⟨"", "", "", "", ""⟩⟩

/-- An incoming message dictionary, with the keys that
add_conversation_embeddings reads. -/
structure Message where
  id : String
  role : String
  content : String
  timestamp : String
deriving DecidableEq

/-- One search hit, as assembled in search_similar_messages
(vector_service.py lines 235-242). -/
structure ScoredMessage (R : Type) where
  score : R
  conversation_id : String
  message_id : String
  role : String
  content_preview : String
  timestamp : String
deriving DecidableEq

/-- In-memory state of a VectorService object: the FAISS index
contents, the parallel metadata list, the configured default
similarity threshold and the three analytics counters
(vector_service.py lines 27-48).  In the source the counters carry a
leading underscore (self._total_searches and so on). -/
structure VectorService (R : Type) where
  index : List (List R)
  metadata : List Meta
  min_similarity_threshold : R
  total_searches : ℕ
  successful_searches : ℕ
  total_results : ℕ
deriving DecidableEq

/-- The default value of the min_similarity_threshold constructor
argument (vector_service.py line 15). -/
def default_min_similarity_threshold : ℚ := 3 / 10

section VectorModel

variable {R : Type} [LinearOrderedCommRing R]

/-- A fresh store, as produced by _load_or_create_index when no index
file exists (vector_service.py lines 121-124): empty index, empty
metadata, analytics counters at zero (lines 33-36). -/
def VectorService.initial (threshold : R) : VectorService R :=
  ⟨[], [], threshold, 0, 0, 0⟩

/-- Python str.strip(): remove leading and trailing whitespace.
Implemented over the character list so that it evaluates by kernel
reduction. -/
def pyStrip (s : String) : String :=
  (((s.data.dropWhile Char.isWhitespace).reverse.dropWhile
      Char.isWhitespace).reverse).asString

/-- preprocess_query (vector_service.py lines 53-57):
" ".join(query.strip().lower().split()).  Python str.split() with no
argument splits on whitespace runs and drops empty pieces; the
leading strip is subsumed by that. -/
def VectorService.preprocess_query (query : String) : String :=
  String.intercalate " "
    ((query.toLower.split Char.isWhitespace).filter (fun s => s ≠ ""))

/-- Inner product of two vectors, the IndexFlatIP similarity. -/
def inner_product (a b : List R) : R := (List.zipWith (· * ·) a b).sum

/-- Candidate ordering used by the model of IndexFlatIP.search:
higher score first; the relation compares scores only, so the stable
insertion sort keeps equal-score candidates in insertion-position
order, as FAISS does. -/
def byScore {α : Type} (f : α → R) (a b : α) : Prop := f b ≤ f a

instance {α : Type} (f : α → R) : DecidableRel (byScore f) :=
  fun a b => inferInstanceAs (Decidable (f b ≤ f a))

instance {α : Type} (f : α → R) : IsTotal α (byScore f) :=
  ⟨fun a b => le_total (f b) (f a)⟩

instance {α : Type} (f : α → R) : IsTrans α (byScore f) :=
  ⟨fun _ _ _ h1 h2 => le_trans h2 h1⟩

/-- All (score, position) pairs for a query vector against the index
contents, in insertion order. -/
def faissPairs (index : List (List R)) (qv : List R) : List (R × ℕ) :=
  (List.range index.length).map (fun i => (inner_product qv (index.getD i []), i))

/-- Model of self.index.search(query_embedding, search_k)
(vector_service.py line 221): the search_k best (score, position)
pairs in descending score order, ties in position order. -/
def faissTopK (index : List (List R)) (qv : List R) (searchK : ℕ) : List (R × ℕ) :=
  (List.insertionSort (byScore Prod.fst) (faissPairs index qv)).take searchK

/-- The conversation filter of search_similar_messages line 232:
Python tests `if conversation_id and ...`, so the filter applies only
when the optional argument is truthy, that is, neither None nor the
empty string. -/
def convPass (conversation_id : Option String) (m : Meta) : Bool :=
  match conversation_id with
  | none => true
  | some c => if c = "" then true else m.conversation_id == c

/-- The per-candidate acceptance test of the result loop
(vector_service.py lines 224-233): the score must reach the
threshold, the position must be inside the metadata list, and the
conversation filter must pass.  (The idx == -1 guard never fires
because search_k <= ntotal.) -/
def VectorService.keepHit (st : VectorService R) (threshold : R)
    (conversation_id : Option String) (p : R × ℕ) : Bool :=
  decide (threshold ≤ p.1) && decide (p.2 < st.metadata.length) &&
    convPass conversation_id (st.metadata.getD p.2 default)

/-- The result record built at lines 235-242 from a candidate pair. -/
def VectorService.mkHit (st : VectorService R) (p : R × ℕ) : ScoredMessage R :=
  let m := st.metadata.getD p.2 default
  ⟨p.1, m.conversation_id, m.message_id, m.role, m.content_preview, m.timestamp⟩

/-- The list returned by search_similar_messages (vector_service.py
lines 193-257): threshold = min_score or default (line 211), search_k
= min(k * 3, ntotal) (line 220), then the loop appends accepted
candidates and breaks once k results are collected, which keeps the
first k accepted candidates in faiss order. -/
def VectorService.search_results (st : VectorService R) (encode : String → List R)
    (query : String) (conversation_id : Option String) (k : ℕ)
    (min_score : Option R) : List (ScoredMessage R) :=
  let threshold := min_score.getD st.min_similarity_threshold
  let qv := encode (VectorService.preprocess_query query)
  let searchK := min (k * 3) st.index.length
  let cands := faissTopK st.index qv searchK
  ((cands.filter (st.keepHit threshold conversation_id)).take k).map st.mkHit

/-- search_similar_messages with its analytics side effects:
_total_searches is incremented on entry (line 208);
_successful_searches and _total_results are updated only when the
result list is non-empty (lines 248-250). -/
def VectorService.search_similar_messages (st : VectorService R)
    (encode : String → List R) (query : String)
    (conversation_id : Option String) (k : ℕ) (min_score : Option R) :
    List (ScoredMessage R) × VectorService R :=
  let results := st.search_results encode query conversation_id k min_score
  (results,
    { st with
        total_searches := st.total_searches + 1
        successful_searches :=
          st.successful_searches + (if results.isEmpty then 0 else 1)
        total_results :=
          st.total_results + (if results.isEmpty then 0 else results.length) })

/-- Python content[:200] + '...' truncation of line 166. -/
def content_preview_of (content : String) : String :=
  if 200 < content.length then (content.data.take 200).asString ++ "..." else content

/-- The texts selected for embedding by add_conversation_embeddings
(lines 158-161): stripped message contents that are non-empty after
stripping. -/
def validTexts (messages : List Message) : List String :=
  messages.filterMap (fun msg =>
    let c := pyStrip msg.content
    if c = "" then none else some c)

/-- The metadata record built at lines 162-168 for one embedded
message (content already stripped). -/
def mkMeta (conversation_id : String) (msg : Message) (content : String) : Meta :=
  ⟨conversation_id, msg.id, msg.role, content_preview_of content, msg.timestamp⟩

/-- The metadata records appended by add_conversation_embeddings, in
message order, one per valid text. -/
def validMetadata (conversation_id : String) (messages : List Message) : List Meta :=
  messages.filterMap (fun msg =>
    let c := pyStrip msg.content
    if c = "" then none else some (mkMeta conversation_id msg c))

/-- add_conversation_embeddings (vector_service.py lines 142-191).
Returns false without touching the store when no valid text remains
(lines 170-172); otherwise embeds all valid texts in one batch call,
appends the vectors to the index and the records to the metadata
list, and returns true.  The embedding provider is modelled as a
total function, so the embedding-failure except path (which would
also return false with the store unchanged, since encode runs before
index.add) does not arise. -/
def VectorService.add_conversation_embeddings (st : VectorService R)
    (encode : String → List R) (conversation_id : String)
    (messages : List Message) : Bool × VectorService R :=
  let texts := validTexts messages
  if texts.isEmpty then (false, st)
  else
    (true,
      { st with
          index := st.index ++ texts.map encode
          metadata := st.metadata ++ validMetadata conversation_id messages })

/-- The rebuild loop of remove_conversation_embeddings
(vector_service.py lines 285-290): walk the metadata list with its
enumeration position, keep every record of another conversation
together with the vector reconstructed from that position.
index.reconstruct(i) raises for i >= ntotal; that exception aborts
the whole operation (state unchanged), modelled by the none result. -/
def rebuild (conversation_id : String) (index : List (List R)) :
    List Meta → ℕ → Option (List (List R) × List Meta)
  | [], _ => some ([], [])
  | m :: rest, i =>
    if m.conversation_id ≠ conversation_id then
      match index.get? i with
      | none => none
      | some v =>
        (rebuild conversation_id index rest (i + 1)).map
          (fun p => (v :: p.1, m :: p.2))
    else rebuild conversation_id index rest (i + 1)

/-- remove_conversation_embeddings (vector_service.py lines 273-304):
build a new index and metadata pair without the target conversation,
then swap them in; on an exception the swap never happens and the
function returns false with the store unchanged. -/
def VectorService.remove_conversation_embeddings (st : VectorService R)
    (conversation_id : String) : Bool × VectorService R :=
  match rebuild conversation_id st.index st.metadata 0 with
  | none => (false, st)
  | some p => (true, { st with index := p.1, metadata := p.2 })

/-- validate_index (vector_service.py lines 73-92): false on a
metadata/vector count mismatch, false on an empty index, true
otherwise.  The hasattr guards always pass after construction and the
body cannot raise, so the except branch is dead. -/
def VectorService.validate_index (st : VectorService R) : Bool :=
  if st.metadata.length ≠ st.index.length then false
  else if st.index.length = 0 then false
  else true

/-- recover_index (vector_service.py lines 94-110): replace index and
metadata with fresh empty ones and report success.  The analytics
counters are not touched. -/
def VectorService.recover_index (st : VectorService R) : Bool × VectorService R :=
  (true, { st with index := [], metadata := [] })

/-- The dictionary returned by get_search_analytics
(vector_service.py lines 315-326).  The two rates use
max(total, 1) as denominator, as in the source. -/
structure SearchAnalytics (R : Type) where
  total_searches : ℕ
  successful_searches : ℕ
  success_rate : ℚ
  average_results_per_search : ℚ
  index_size : ℕ
  metadata_size : ℕ
  min_similarity_threshold : R

def VectorService.get_search_analytics (st : VectorService R) : SearchAnalytics R :=
  ⟨st.total_searches, st.successful_searches,
    (st.successful_searches : ℚ) / ((max st.total_searches 1 : ℕ) : ℚ),
    (st.total_results : ℚ) / ((max st.total_searches 1 : ℕ) : ℚ),
    st.index.length, st.metadata.length, st.min_similarity_threshold⟩

/-- The mutating and observing operations a caller can perform on one
store, used to express reachable-state invariants. -/
inductive Op (R : Type) where
  | add (conversation_id : String) (messages : List Message)
  | remove (conversation_id : String)
  | search (query : String) (conversation_id : Option String) (k : ℕ)
      (min_score : Option R)
  | validate
  | recover

/-- State transition of one operation (the returned value is
discarded; validate does not change state). -/
def applyOp (encode : String → List R) (st : VectorService R) : Op R → VectorService R
  | Op.add cid msgs => (st.add_conversation_embeddings encode cid msgs).2
  | Op.remove cid => (st.remove_conversation_embeddings cid).2
  | Op.search q c k ms => (st.search_similar_messages encode q c k ms).2
  | Op.validate => st
  | Op.recover => (st.recover_index).2

/-- Run a finite sequence of operations. -/
def runOps (encode : String → List R) (st : VectorService R) (ops : List (Op R)) :
    VectorService R :=
  ops.foldl (applyOp encode) st

/-- The kept-pair predicate of the rebuild loop. -/
def keptPair (conversation_id : String) (p : Meta × List R) : Bool :=
  decide (p.1.conversation_id ≠ conversation_id)

/-- Annotated candidates: score, index position, metadata record. -/
def annPairs (st : VectorService R) (qv : List R) : List (R × ℕ × Meta) :=
  (List.range st.index.length).map
    (fun i => (inner_product qv (st.index.getD i []), i, st.metadata.getD i default))

/-- Score and metadata payload of every stored vector, in insertion
order. -/
def payloads (st : VectorService R) (qv : List R) : List (R × Meta) :=
  (st.metadata.zip st.index).map (fun p => (inner_product qv p.2, p.1))

/-- Threshold and conversation filter on a payload. -/
def keepPayload (threshold : R) (conversation_id : Option String) (w : R × Meta) : Bool :=
  decide (threshold ≤ w.1) && convPass conversation_id w.2

/-- Result record built from a payload. -/
def hitOfPayload (w : R × Meta) : ScoredMessage R :=
  ⟨w.1, w.2.conversation_id, w.2.message_id, w.2.role, w.2.content_preview, w.2.timestamp⟩

/- Marker: definitions for concrete witnesses are inserted below. -/

/-- A constant embedding provider used in concrete scenarios; it
ignores the query text, so string preprocessing never needs to be
evaluated. -/
def encodeConst (v : List ℤ) : String → List ℤ := fun _ => v

def metaA : Meta := ⟨"A", "a1", "user", "alpha", "t1"⟩

def metaB : Meta := ⟨"B", "b1", "assistant", "beta", "t2"⟩

def metaEmptyConv : Meta := ⟨"", "e1", "user", "eps", "t3"⟩

/-- One stored vector belonging to conversation A, threshold 0. -/
def stOneA : VectorService ℤ := ⟨[[1]], [metaA], 0, 0, 0, 0⟩

/-- One stored vector belonging to conversation B, threshold 0. -/
def stOneB : VectorService ℤ := ⟨[[1]], [metaB], 0, 0, 0, 0⟩

/-- Conversation A holds the three best-scoring vectors, B the
fourth; with k = 1 the candidate window (k * 3 = 3) fills up with
A's vectors before B is reached. -/
def stCrowd : VectorService ℤ :=
  ⟨[[5], [4], [3], [2]], [metaA, metaA, metaA, metaB], 0, 0, 0, 0⟩

/-- Data for conversation A and for a conversation whose id is the
empty string. -/
def stEmptyConv : VectorService ℤ := ⟨[[5], [2]], [metaA, metaEmptyConv], 0, 0, 0, 0⟩

/-- Two conversations, one vector each, window wide enough. -/
def stTwo : VectorService ℤ := ⟨[[2], [1]], [metaA, metaB], 0, 0, 0, 0⟩

def msgHello : Message := ⟨"m1", "user", "hello", "t1"⟩

def msgBlank : Message := ⟨"m2", "user", " ", "t2"⟩

/-- A short demonstration trace of operations. -/
def opsDemo : List (Op ℤ) :=
  [Op.add "A" [msgHello, msgBlank], Op.search "q" none 5 none, Op.remove "A",
   Op.recover, Op.add "B" [msgHello]]


end VectorModel

/-
RAG service model (backend/services/rag_service.py).  Python string
surgery (split, join, strip, replace, substring test) is modelled
over character lists with fuel-bounded structural recursion so that
the definitions evaluate by kernel reduction.
-/

/-- Helper for pySplit: Python-style split of a character list on a
non-overlapping separator occurrence, scanning left to right.  The
fuel argument only bounds recursion depth; it is instantiated large
enough never to run out. -/
def splitAux (sep : List Char) : ℕ → List Char → List Char → List (List Char)
  | 0, l, acc => [acc.reverse ++ l]
  | _ + 1, [], acc => [acc.reverse]
  | fuel + 1, c :: rest, acc =>
    if sep.isPrefixOf (c :: rest) then
      acc.reverse :: splitAux sep fuel ((c :: rest).drop sep.length) []
    else
      splitAux sep fuel rest (c :: acc)

/-- Python str.split(sep) for a non-empty separator: the list of
pieces between non-overlapping occurrences of sep.  Always returns at
least one piece. -/
def pySplit (s pattern : String) : List String :=
  (splitAux pattern.data (s.data.length + 1) s.data []).map List.asString

/-- Python membership test `pattern in s` for a non-empty pattern:
equivalent to the split having at least two pieces. -/
def hasSub (s pattern : String) : Bool := 2 ≤ (pySplit s pattern).length

/-- Python s.split(pattern)[0]; total because split is never empty. -/
def partBefore (s pattern : String) : String := (pySplit s pattern).headD ""

/-- Python s.split(pattern)[1]; in the source every use is guarded by
an `in` test, so the default is never taken on the modelled paths. -/
def partAfter (s pattern : String) : String := (pySplit s pattern).getD 1 ""

/-- The five section markers the RAG service writes and parses
(rag_service.py lines 120-145 and 700-707). -/
def summaryMarker : String := "**Conversation Summary:**"

def relevantMarker : String := "**Relevant Context:**"

def questionsMarker : String := "**Recent Questions:**"

def topicsMarker : String := "**Topics Discussed:**"

def recentMarker : String := "**Recent Context:**"

/-- The default token budget self.token_limit (rag_service.py
line 16). -/
def token_limit : ℕ := 4000

/-- count_tokens (rag_service.py lines 24-42).  The tiktoken encoder
is an external dependency; its absence is caught and the documented
deterministic fallback of line 42, len(text) // 4, is used.  That
fallback is what this model computes. -/
def RAGService.count_tokens (text : String) : ℕ := text.length / 4

/-- manage_context_length (rag_service.py lines 95-155), translated
branch by branch:
- return the context unchanged when context plus query fits the
  budget (lines 112-115);
- strategy 1: cut everything from the topics marker on (lines
  120-121); then, when a summary marker is present, rebuild the
  summary section around its "Total messages:" field (lines
  123-127) — when that field is absent the [1] subscript raises
  IndexError, the blanket except of line 153 fires and the current
  (possibly already topics-stripped) context is returned, which the
  match on none models;
- strategy 2: when a relevant-context section has more than 4 lines,
  keep the first 4 (lines 130-135);
- strategy 3: when still over budget, keep only the first 2
  relevant-context lines, or return the empty string when there is no
  relevant-context section (lines 138-148).
The result of strategy 3 is returned without re-measuring.
Python str.replace replaces every occurrence, as String.replace does
(the corner where the replaced section is the empty string differs
between Python and Lean and is unreachable on the paths used by the
theorems below).  The max_tokens = None default of line 107 is
resolved at the call site. -/
def RAGService.manage_context_length (context query : String) (max_tokens : ℕ) : String :=
  if RAGService.count_tokens (context ++ query) ≤ max_tokens then context
  else
    let c1 := if hasSub context topicsMarker
      then pyStrip (partBefore context topicsMarker) else context
    let afterSummary : Option String :=
      if hasSub c1 summaryMarker then
        let summary_section := partBefore (partAfter c1 summaryMarker) "**"
        if hasSub summary_section "Total messages:" then
          let essential := "**Conversation Summary:**\n• Total messages: " ++
            pyStrip (partBefore (partAfter summary_section "Total messages:") "•") ++
            "\n\n"
          some (c1.replace summary_section essential)
        else none
      else some c1
    match afterSummary with
    | none => c1
    | some c2 =>
      let c3 := if hasSub c2 relevantMarker then
          let relevant_section := partBefore (partAfter c2 relevantMarker) "**"
          let lines := (pyStrip relevant_section).splitOn "\n"
          if 4 < lines.length then
            c2.replace relevant_section
              (String.intercalate "\n" (lines.take 4) ++ "\n")
          else c2
        else c2
      if max_tokens < RAGService.count_tokens (c3 ++ query) then
        if hasSub c3 relevantMarker then
          let relevant_section := partBefore (partAfter c3 relevantMarker) "**"
          let lines := (pyStrip relevant_section).splitOn "\n"
          if 2 < lines.length then
            relevantMarker ++ "\n" ++
              (String.intercalate "\n" (lines.take 2) ++ "\n") ++ "\n"
          else c3
        else ""
      else c3

/-- get_dynamic_context (rag_service.py lines 157-187).  The first
statement of the try block, line 170, calls
self.vector_service.get_conversation_messages(conversation_id); the
VectorService class defines no attribute of that name (the method of
that name lives on DatabaseService, database_service.py line 133), so
every call raises AttributeError, the blanket except of line 185
catches it and returns the empty string.  The tier dispatch of lines
175-183 (and _get_recent_context, _get_medium_context,
_get_long_context) is therefore unreachable, and the function is
extensionally the constant empty string.  The same applies when
self.vector_service is None.  -/
def RAGService.get_dynamic_context (_query _conversation_id : String) : String := ""

/-- generate_context (rag_service.py lines 260-296): dynamic context,
then manage_context_length with max_tokens = None, that is, the
default token_limit of 4000.  The validate_context_relevance call of
line 283 only logs and never changes the returned string.  The third
parameter mirrors the unused messages argument of the source; note
the source signature has no max_tokens parameter. -/
def RAGService.generate_context (query conversation_id : String)
    (_messages : List Message) : String :=
  RAGService.manage_context_length
    (RAGService.get_dynamic_context query conversation_id) query token_limit

/-- The section markers recognized by validate_context_relevance
(rag_service.py lines 701-707). -/
def sectionMarkers : List String :=
  [summaryMarker, relevantMarker, questionsMarker, topicsMarker, recentMarker]

/-- Number of named sections present in a context string, the notion
of retained sections used by the budget-compliance claim. -/
def sectionsRetained (context : String) : ℕ :=
  (sectionMarkers.filter (fun m => hasSub context m)).length

/-
General list lemmas used by the claim proofs: filter and map
commutations, a characterization of zip over equal-length lists, and
the stability of insertion sort in its filter-commutation form.
-/

section ListLemmas

variable {α β : Type}

theorem filter_map_comm (f : α → β) (p : β → Bool) :
    ∀ l : List α, (l.map f).filter p = (l.filter (fun a => p (f a))).map f
  | [] => rfl
  | a :: t => by
    by_cases h : p (f a)
    · simp only [List.map_cons, List.filter_cons, h, if_true, List.map_cons,
        filter_map_comm f p t]
    · simp [List.map_cons, List.filter_cons, h, filter_map_comm f p t]

theorem map_congr_mem {f g : α → β} :
    ∀ {l : List α}, (∀ a ∈ l, f a = g a) → l.map f = l.map g
  | [], _ => rfl
  | a :: t, h => by
    simp only [List.map_cons]
    rw [h a (List.mem_cons_self a t),
      map_congr_mem (fun x hx => h x (List.mem_cons_of_mem a hx))]

theorem zip_map_fst_snd_eq : ∀ l : List (α × β), (l.map Prod.fst).zip (l.map Prod.snd) = l
  | [] => rfl
  | p :: rest => by simp [zip_map_fst_snd_eq rest]

theorem zip_eq_range_map (dx : α) (dy : β) :
    ∀ (xs : List α) (ys : List β), xs.length = ys.length →
      xs.zip ys = (List.range xs.length).map (fun i => (xs.getD i dx, ys.getD i dy))
  | [], [], _ => rfl
  | [], _ :: _, h => by simp at h
  | _ :: _, [], h => by simp at h
  | x :: xs, y :: ys, h => by
    have hlen : xs.length = ys.length := by simpa using h
    simp only [List.zip_cons_cons, List.length_cons, List.range_succ_eq_map,
      List.map_cons, List.getD_cons_zero, List.map_map]
    rw [zip_eq_range_map dx dy xs ys hlen]
    rfl

end ListLemmas

section StableSort

variable {α : Type} (r : α → α → Prop) [DecidableRel r]

theorem orderedInsert_of_forall {a : α} :
    ∀ {l : List α}, (∀ x ∈ l, r a x) → List.orderedInsert r a l = a :: l
  | [], _ => rfl
  | b :: t, h => by
    unfold List.orderedInsert
    rw [if_pos (h b (List.mem_cons_self b t))]

theorem filter_orderedInsert_pos [IsTrans α r] (p : α → Bool) (a : α)
    (hpa : p a = true) :
    ∀ (l : List α), l.Sorted r →
      (List.orderedInsert r a l).filter p = List.orderedInsert r a (l.filter p)
  | [], _ => by simp [hpa]
  | b :: t, hs => by
    by_cases hr : r a b
    · rw [List.orderedInsert, if_pos hr]
      by_cases hpb : p b
      · simp only [List.filter_cons, hpa, if_true, hpb]
        rw [orderedInsert_of_forall r]
        intro x hx
        rcases List.mem_cons.mp hx with hx | hx
        · exact hx ▸ hr
        · exact IsTrans.trans a b x hr
            (List.rel_of_sorted_cons hs x (List.mem_of_mem_filter hx))
      · simp only [List.filter_cons, hpa, if_true, hpb, if_false]
        rw [orderedInsert_of_forall r]
        intro x hx
        exact IsTrans.trans a b x hr
          (List.rel_of_sorted_cons hs x (List.mem_of_mem_filter hx))
    · rw [List.orderedInsert, if_neg hr]
      by_cases hpb : p b
      · simp only [List.filter_cons, hpb, if_true]
        rw [List.orderedInsert, if_neg hr,
          filter_orderedInsert_pos p a hpa t hs.tail]
      · simp only [List.filter_cons, hpb, if_false]
        exact filter_orderedInsert_pos p a hpa t hs.tail

theorem filter_orderedInsert_neg (p : α → Bool) (a : α) (hpa : p a = false) :
    ∀ (l : List α), (List.orderedInsert r a l).filter p = l.filter p
  | [] => by simp [hpa]
  | b :: t => by
    by_cases hr : r a b
    · rw [List.orderedInsert, if_pos hr]
      simp [List.filter_cons, hpa]
    · rw [List.orderedInsert, if_neg hr]
      simp only [List.filter_cons]
      rw [filter_orderedInsert_neg p a hpa t]

/-- Stability of insertion sort, in filter form: sorting a filtered
list is filtering the sorted list.  Holds because the sort is stable
and the relation is total and transitive. -/
theorem insertionSort_filter [IsTotal α r] [IsTrans α r] (p : α → Bool) :
    ∀ l : List α,
      List.insertionSort r (l.filter p) = (List.insertionSort r l).filter p
  | [] => rfl
  | a :: t => by
    by_cases hpa : p a
    · simp only [List.filter_cons, hpa, if_true, List.insertionSort]
      rw [insertionSort_filter p t,
        filter_orderedInsert_pos r p a hpa _ (List.sorted_insertionSort r t)]
    · simp only [List.filter_cons, hpa, Bool.false_eq_true, if_false,
        List.insertionSort]
      rw [insertionSort_filter p t,
        filter_orderedInsert_neg r p a (Bool.not_eq_true _ |>.mp hpa)]

end StableSort

/-
Characterization of the rebuild loop and of remove, plus basic
length facts used by the invariant claims.
-/

section RebuildLemmas

variable {R : Type}

theorem rebuild_eq (cid : String) (index : List (List R)) :
    ∀ (meta : List Meta) (i : ℕ), i + meta.length ≤ index.length →
      rebuild cid index meta i = some
        (((meta.zip (index.drop i)).filter (keptPair cid)).map Prod.snd,
         ((meta.zip (index.drop i)).filter (keptPair cid)).map Prod.fst)
  | [], i, _ => by simp [rebuild]
  | m :: rest, i, h => by
    have hi : i < index.length := by
      simp only [List.length_cons] at h
      omega
    have hdrop : index.drop i = index[i] :: index.drop (i + 1) :=
      List.drop_eq_getElem_cons hi
    have hget : index.get? i = some (index.get ⟨i, hi⟩) := List.get?_eq_get hi
    have hrest : rebuild cid index rest (i + 1) = some
        (((rest.zip (index.drop (i + 1))).filter (keptPair cid)).map Prod.snd,
         ((rest.zip (index.drop (i + 1))).filter (keptPair cid)).map Prod.fst) := by
      apply rebuild_eq cid index rest (i + 1)
      simp only [List.length_cons] at h
      omega
    by_cases hm : m.conversation_id ≠ cid
    · rw [rebuild, if_pos hm, hget, hrest, hdrop]
      simp only [List.zip_cons_cons, List.filter_cons]
      rw [if_pos (show keptPair cid (m, index[i]) = true by simp [keptPair, hm])]
      simp only [Option.map_some', Option.some_inj, List.map_cons]
      rfl
    · rw [rebuild, if_neg hm, hrest, hdrop]
      simp only [List.zip_cons_cons, List.filter_cons]
      rw [if_neg (show ¬ keptPair cid (m, index[i]) = true by simp [keptPair, hm])]

/-- remove under the metadata/vector alignment invariant: it always
succeeds and swaps in the kept metadata and the kept vectors. -/
theorem remove_spec (st : VectorService R) (cid : String)
    (hinv : st.metadata.length = st.index.length) :
    st.remove_conversation_embeddings cid =
      (true, { st with
        index := ((st.metadata.zip st.index).filter (keptPair cid)).map Prod.snd,
        metadata := ((st.metadata.zip st.index).filter (keptPair cid)).map Prod.fst }) := by
  unfold VectorService.remove_conversation_embeddings
  rw [rebuild_eq cid st.index st.metadata 0 (by omega)]
  simp

/-- Whenever the rebuild loop succeeds (with or without the
alignment invariant), no kept metadata record belongs to the removed
conversation. -/
theorem rebuild_mem (cid : String) (index : List (List R)) :
    ∀ (meta : List Meta) (i : ℕ) (vs : List (List R)) (ms : List Meta),
      rebuild cid index meta i = some (vs, ms) →
        ∀ m ∈ ms, m.conversation_id ≠ cid
  | [], _, vs, ms, h => by
    simp only [rebuild, Option.some_inj, Prod.mk.injEq] at h
    rw [← h.2]
    intro m hm
    exact absurd hm (List.not_mem_nil m)
  | mm :: rest, i, vs, ms, h => by
    by_cases hm : mm.conversation_id ≠ cid
    · rw [rebuild, if_pos hm] at h
      match hget : index.get? i with
      | none => rw [hget] at h; exact absurd h (by simp)
      | some v =>
        rw [hget] at h
        match hrec : rebuild cid index rest (i + 1) with
        | none => rw [hrec] at h; exact absurd h (by simp)
        | some p =>
          rw [hrec] at h
          simp only [Option.map_some', Option.some_inj, Prod.mk.injEq] at h
          intro x hx
          rw [← h.2] at hx
          rcases List.mem_cons.mp hx with hx | hx
          · exact hx ▸ hm
          · exact rebuild_mem cid index rest (i + 1) p.1 p.2
              (by rw [hrec]) x hx
    · rw [rebuild, if_neg hm] at h
      exact rebuild_mem cid index rest (i + 1) vs ms h

/-- Whenever the rebuild loop succeeds, the kept vectors and the kept
metadata have the same length. -/
theorem rebuild_length (cid : String) (index : List (List R)) :
    ∀ (meta : List Meta) (i : ℕ) (vs : List (List R)) (ms : List Meta),
      rebuild cid index meta i = some (vs, ms) → vs.length = ms.length
  | [], _, vs, ms, h => by
    simp only [rebuild, Option.some_inj, Prod.mk.injEq] at h
    rw [← h.1, ← h.2]
    rfl
  | mm :: rest, i, vs, ms, h => by
    by_cases hm : mm.conversation_id ≠ cid
    · rw [rebuild, if_pos hm] at h
      match hget : index.get? i with
      | none => rw [hget] at h; exact absurd h (by simp)
      | some v =>
        rw [hget] at h
        match hrec : rebuild cid index rest (i + 1) with
        | none => rw [hrec] at h; exact absurd h (by simp)
        | some p =>
          rw [hrec] at h
          simp only [Option.map_some', Option.some_inj, Prod.mk.injEq] at h
          have hlen := rebuild_length cid index rest (i + 1) p.1 p.2 (by rw [hrec])
          rw [← h.1, ← h.2]
          simp only [List.length_cons]
          omega
    · rw [rebuild, if_neg hm] at h
      exact rebuild_length cid index rest (i + 1) vs ms h

end RebuildLemmas

/-
Bridge: under the alignment invariant, when the candidate window
covers the whole index (k * 3 >= total vectors), search_results is a
stable sort of (score, metadata) payloads by descending score,
filtered by threshold and conversation, truncated to k.  Candidate
positions only serve as the stable tie-break and disappear from the
statement.
-/

section SearchBridge

variable {R : Type} [LinearOrderedCommRing R]

theorem mem_annPairs {st : VectorService R} {qv : List R} {t : R × ℕ × Meta}
    (ht : t ∈ annPairs st qv) :
    t.2.1 < st.index.length ∧ t.2.2 = st.metadata.getD t.2.1 default := by
  rcases List.mem_map.mp ht with ⟨i, hi, rfl⟩
  exact ⟨List.mem_range.mp hi, rfl⟩

theorem search_results_full_window (st : VectorService R) (encode : String → List R)
    (query : String) (conversation_id : Option String) (k : ℕ) (min_score : Option R)
    (hinv : st.metadata.length = st.index.length)
    (hwin : st.index.length ≤ k * 3) :
    st.search_results encode query conversation_id k min_score =
      (((List.insertionSort (byScore Prod.fst)
            (payloads st (encode (VectorService.preprocess_query query)))).filter
          (keepPayload (min_score.getD st.min_similarity_threshold) conversation_id)).take
        k).map hitOfPayload := by
  have key : ∀ (qv : List R) (τ : R),
      ((((List.insertionSort (byScore Prod.fst) (faissPairs st.index qv)).take
          st.index.length).filter (st.keepHit τ conversation_id)).take k).map st.mkHit
      = (((List.insertionSort (byScore Prod.fst) (payloads st qv)).filter
          (keepPayload τ conversation_id)).take k).map hitOfPayload := by
    intro qv τ
    have hfaiss : faissPairs st.index qv =
        (annPairs st qv).map (fun t => (t.1, t.2.1)) := by
      simp only [faissPairs, annPairs, List.map_map]
      rfl
    have hsortmap :
        List.insertionSort (byScore Prod.fst)
            ((annPairs st qv).map (fun t => (t.1, t.2.1)))
          = (List.insertionSort (byScore Prod.fst) (annPairs st qv)).map
              (fun t => (t.1, t.2.1)) :=
      (List.map_insertionSort (byScore Prod.fst) (byScore Prod.fst)
        (fun t => (t.1, t.2.1)) (annPairs st qv) (fun _ _ _ _ => Iff.rfl)).symm
    have hpayload : (annPairs st qv).map (fun t => (t.1, t.2.2)) = payloads st qv := by
      rw [payloads, zip_eq_range_map default [] st.metadata st.index hinv, hinv]
      simp only [annPairs, List.map_map]
      rfl
    have hsortmap2 :
        List.insertionSort (byScore Prod.fst)
            ((annPairs st qv).map (fun t => (t.1, t.2.2)))
          = (List.insertionSort (byScore Prod.fst) (annPairs st qv)).map
              (fun t => (t.1, t.2.2)) :=
      (List.map_insertionSort (byScore Prod.fst) (byScore Prod.fst)
        (fun t => (t.1, t.2.2)) (annPairs st qv) (fun _ _ _ _ => Iff.rfl)).symm
    have hmemfacts : ∀ t ∈ List.insertionSort (byScore Prod.fst) (annPairs st qv),
        t.2.1 < st.metadata.length ∧ t.2.2 = st.metadata.getD t.2.1 default := by
      intro t ht
      have hfacts := mem_annPairs ((List.mem_insertionSort _).mp ht)
      exact ⟨hinv ▸ hfacts.1, hfacts.2⟩
    have e1 : (List.insertionSort (byScore Prod.fst)
          (faissPairs st.index qv)).take st.index.length
        = List.insertionSort (byScore Prod.fst) (faissPairs st.index qv) :=
      List.take_of_length_le (by
        rw [List.length_insertionSort, faissPairs, List.length_map, List.length_range])
    rw [e1, hfaiss, hsortmap, filter_map_comm, ← List.map_take, List.map_map,
      ← hpayload, hsortmap2, filter_map_comm, ← List.map_take, List.map_map]
    have hfilter : (List.insertionSort (byScore Prod.fst) (annPairs st qv)).filter
          (fun t => st.keepHit τ conversation_id (t.1, t.2.1))
        = (List.insertionSort (byScore Prod.fst) (annPairs st qv)).filter
          (fun t => keepPayload τ conversation_id (t.1, t.2.2)) :=
      List.filter_congr (fun t ht => by
        rcases hmemfacts t ht with ⟨hlt, hmeta⟩
        simp [VectorService.keepHit, keepPayload, hmeta, hlt])
    rw [hfilter]
    apply map_congr_mem
    intro t ht
    have hmem : t ∈ List.insertionSort (byScore Prod.fst) (annPairs st qv) :=
      List.mem_of_mem_filter (List.mem_of_mem_take ht)
    rcases hmemfacts t hmem with ⟨hlt, hmeta⟩
    simp [Function.comp, VectorService.mkHit, hitOfPayload, hmeta]
  simp only [VectorService.search_results, faissTopK]
  rw [Nat.min_eq_right hwin]
  exact key (encode (VectorService.preprocess_query query))
    (min_score.getD st.min_similarity_threshold)

end SearchBridge

/-
Claim C1: bounded, thresholded, filtered, ordered search results.
-/

/-- C1 (amended): for every store, embedding provider, query, k,
min_score and optional conversation filter, search returns at most k
items, every item reaches the effective threshold (the explicit
min_score, or the configured default when none is given), every item
belongs to the filter conversation whenever a NON-EMPTY filter is
given, and the items come in descending score order.  (The
non-emptiness proviso is forced by the Python truthiness test of
line 232; see the counterexample.) -/
theorem claim_C1_amended {R : Type} [LinearOrderedCommRing R] (st : VectorService R)
    (encode : String → List R) (query : String) (conversation_id : Option String)
    (k : ℕ) (min_score : Option R) :
    ((st.search_similar_messages encode query conversation_id k min_score).1.length ≤ k)
    ∧ (∀ r ∈ (st.search_similar_messages encode query conversation_id k min_score).1,
        min_score.getD st.min_similarity_threshold ≤ r.score)
    ∧ (∀ c, conversation_id = some c → c ≠ "" →
        ∀ r ∈ (st.search_similar_messages encode query conversation_id k min_score).1,
          r.conversation_id = c)
    ∧ (st.search_similar_messages encode query conversation_id k min_score).1.Pairwise
        (fun a b => b.score ≤ a.score) := by
  have hres : (st.search_similar_messages encode query conversation_id k min_score).1
      = st.search_results encode query conversation_id k min_score := rfl
  rw [hres]
  set τ := min_score.getD st.min_similarity_threshold with hτ
  set qv := encode (VectorService.preprocess_query query) with hqv
  set searchK := min (k * 3) st.index.length with hsearchK
  have hform : st.search_results encode query conversation_id k min_score
      = (((faissTopK st.index qv searchK).filter
            (st.keepHit τ conversation_id)).take k).map st.mkHit := rfl
  rw [hform]
  refine ⟨?_, ?_, ?_, ?_⟩
  · rw [List.length_map, List.length_take]
    exact min_le_left _ _
  · intro r hr
    rcases List.mem_map.mp hr with ⟨p, hp, rfl⟩
    have hkeep := List.of_mem_filter (List.mem_of_mem_take hp)
    have hthr : decide (τ ≤ p.1) = true := by
      simp only [VectorService.keepHit, Bool.and_eq_true] at hkeep
      exact hkeep.1.1
    simpa [VectorService.mkHit] using of_decide_eq_true hthr
  · intro c hc hne r hr
    rcases List.mem_map.mp hr with ⟨p, hp, rfl⟩
    have hkeep := List.of_mem_filter (List.mem_of_mem_take hp)
    simp only [VectorService.keepHit, hc, Bool.and_eq_true, convPass] at hkeep
    have hpass := hkeep.2
    rw [if_neg hne] at hpass
    simpa [VectorService.mkHit] using eq_of_beq hpass
  · have hsorted : (List.insertionSort (byScore Prod.fst)
        (faissPairs st.index qv)).Pairwise (byScore Prod.fst) :=
      List.sorted_insertionSort (byScore Prod.fst) (faissPairs st.index qv)
    have hsub : List.Sublist
        (((faissTopK st.index qv searchK).filter (st.keepHit τ conversation_id)).take k)
        (List.insertionSort (byScore Prod.fst) (faissPairs st.index qv)) :=
      ((List.take_sublist _ _).trans (List.filter_sublist _)).trans
        (List.take_sublist _ _)
    have hpw := hsorted.sublist hsub
    exact List.pairwise_map.mpr (List.Pairwise.imp (fun h => h) hpw)

/-- C1 counterexample: the claim as stated fails when the caller
passes the empty string as the conversation filter: Python treats it
as falsy, the filter is skipped, and an item of conversation "A" is
returned even though its conversation_id differs from the given
filter "". -/
theorem claim_C1_counterexample :
    ¬ (∀ r ∈ (stOneA.search_similar_messages (encodeConst [1]) "q" (some "") 5 none).1,
        r.conversation_id = "") := by decide

/-- C1 witness: a search that returns a non-empty result on which
every part of the amended claim is exercised at concrete inputs. -/
theorem claim_C1_witness :
    ((stOneA.search_similar_messages (encodeConst [1]) "q" (some "A") 5 none).1 ≠ [])
    ∧ ((stOneA.search_similar_messages (encodeConst [1]) "q" (some "A") 5 none).1.length ≤ 5)
    ∧ (∀ r ∈ (stOneA.search_similar_messages (encodeConst [1]) "q" (some "A") 5 none).1,
        r.conversation_id = "A") :=
  ⟨by decide,
   (claim_C1_amended stOneA (encodeConst [1]) "q" (some "A") 5 none).1,
   (claim_C1_amended stOneA (encodeConst [1]) "q" (some "A") 5 none).2.2.1 "A" rfl
     (by decide)⟩

/-
Claim C2: len(metadata) == vector_count is preserved by every
operation sequence.
-/

theorem validTexts_length_eq (conversation_id : String) :
    ∀ messages : List Message,
      (validTexts messages).length = (validMetadata conversation_id messages).length
  | [] => rfl
  | m :: rest => by
    by_cases hc : pyStrip m.content = ""
    · simp only [validTexts, validMetadata, List.filterMap_cons, hc, if_pos rfl]
      exact validTexts_length_eq conversation_id rest
    · simp only [validTexts, validMetadata, List.filterMap_cons, hc, if_neg hc,
        List.length_cons]
      exact congrArg Nat.succ (validTexts_length_eq conversation_id rest)

theorem applyOp_inv {R : Type} [LinearOrderedCommRing R] (encode : String → List R)
    (st : VectorService R) (op : Op R)
    (h : st.metadata.length = st.index.length) :
    (applyOp encode st op).metadata.length = (applyOp encode st op).index.length := by
  cases op with
  | add cid msgs =>
    simp only [applyOp, VectorService.add_conversation_embeddings]
    by_cases he : (validTexts msgs).isEmpty
    · rw [if_pos he]
      exact h
    · rw [if_neg he]
      simp only [List.length_append, List.length_map]
      rw [h, validTexts_length_eq cid msgs]
  | remove cid =>
    simp only [applyOp, VectorService.remove_conversation_embeddings]
    match hr : rebuild cid st.index st.metadata 0 with
    | none => exact h
    | some p =>
      simpa using (rebuild_length cid st.index st.metadata 0 p.1 p.2 (by rw [hr])).symm
  | search q c k ms =>
    simpa [applyOp, VectorService.search_similar_messages] using h
  | validate => exact h
  | recover => rfl

/-- C2: for every store in which the metadata list and the index are
aligned (in particular the fresh store), after any finite sequence of
add, remove, search, validate and recover operations the metadata
length still equals the number of stored vectors.  add appends one
metadata record per embedded text (or nothing on failure), and the
rebuild performed by remove keeps vectors and records in lockstep. -/
theorem claim_C2 {R : Type} [LinearOrderedCommRing R] (encode : String → List R)
    (st : VectorService R) (ops : List (Op R))
    (h : st.metadata.length = st.index.length) :
    (runOps encode st ops).metadata.length = (runOps encode st ops).index.length := by
  induction ops generalizing st with
  | nil => exact h
  | cons op rest ih =>
    exact ih (applyOp encode st op) (applyOp_inv encode st op h)

/-- C2 witness: the invariant holds at the fresh store and is carried
through a concrete trace containing an add (with one skipped blank
message), a search, a remove and a recover. -/
theorem claim_C2_witness :
    ((VectorService.initial (0 : ℤ)).metadata.length
        = (VectorService.initial (0 : ℤ)).index.length)
    ∧ ((runOps (encodeConst [1]) (VectorService.initial (0 : ℤ)) opsDemo).metadata.length
        = (runOps (encodeConst [1]) (VectorService.initial (0 : ℤ)) opsDemo).index.length) :=
  ⟨rfl, claim_C2 (encodeConst [1]) (VectorService.initial (0 : ℤ)) opsDemo rfl⟩

/-
Claim C3: removal completeness for a non-empty conversation id.
-/

theorem search_results_empty_of_conv {R : Type} [LinearOrderedCommRing R]
    (st : VectorService R) (A : String) (hA : A ≠ "")
    (hconv : ∀ m ∈ st.metadata, m.conversation_id ≠ A)
    (encode : String → List R) (q : String) (k : ℕ) (ms : Option R) :
    st.search_results encode q (some A) k ms = [] := by
  have hform : st.search_results encode q (some A) k ms
      = (((faissTopK st.index (encode (VectorService.preprocess_query q))
            (min (k * 3) st.index.length)).filter
          (st.keepHit (ms.getD st.min_similarity_threshold) (some A))).take k).map
        st.mkHit := rfl
  rw [hform, List.filter_eq_nil_iff.mpr]
  · simp
  · intro p hp hkeep
    simp only [VectorService.keepHit, Bool.and_eq_true] at hkeep
    obtain ⟨⟨_, hlen⟩, hcp⟩ := hkeep
    have hlt : p.2 < st.metadata.length := of_decide_eq_true hlen
    simp only [convPass, if_neg hA] at hcp
    have heq : (st.metadata.getD p.2 default).conversation_id = A := eq_of_beq hcp
    have hmem : st.metadata.getD p.2 default ∈ st.metadata := by
      rw [List.getD_eq_getElem st.metadata default hlt]
      exact List.getElem_mem hlt
    exact hconv _ hmem heq

/-- C3 (amended): for every store and NON-EMPTY conversation id A,
once remove(A) succeeds, every subsequent search with conversation
filter A returns the empty list, for any embedding provider, query, k
and min_score; searching never modifies the index or metadata, so the
property persists across further searches.  (Restricting to non-empty
A is forced by the counterexample: the filter argument "" is falsy in
Python and disables filtering.) -/
theorem claim_C3_amended {R : Type} [LinearOrderedCommRing R] (st : VectorService R)
    (A : String) (hA : A ≠ "")
    (hok : (st.remove_conversation_embeddings A).1 = true) :
    (∀ (encode : String → List R) (q : String) (k : ℕ) (ms : Option R),
      ((st.remove_conversation_embeddings A).2.search_similar_messages
          encode q (some A) k ms).1 = [])
    ∧ (∀ (encode : String → List R) (q : String) (c : Option String) (k : ℕ)
        (ms : Option R),
        (((st.remove_conversation_embeddings A).2.search_similar_messages
            encode q c k ms).2).index = (st.remove_conversation_embeddings A).2.index
        ∧ (((st.remove_conversation_embeddings A).2.search_similar_messages
            encode q c k ms).2).metadata
          = (st.remove_conversation_embeddings A).2.metadata) := by
  have hconv : ∀ m ∈ (st.remove_conversation_embeddings A).2.metadata,
      m.conversation_id ≠ A := by
    rcases hr : rebuild A st.index st.metadata 0 with _ | p
    · exfalso
      unfold VectorService.remove_conversation_embeddings at hok
      rw [hr] at hok
      simp at hok
    · unfold VectorService.remove_conversation_embeddings
      rw [hr]
      exact rebuild_mem A st.index st.metadata 0 p.1 p.2 (by rw [hr])
  refine ⟨fun encode q k ms => ?_, fun _ _ _ _ _ => ⟨rfl, rfl⟩⟩
  exact search_results_empty_of_conv _ A hA hconv encode q k ms

/-- C3 counterexample: with A the empty string, remove("") succeeds,
but a subsequent search filtered on "" still returns a hit from
conversation "B": the falsy filter disables conversation scoping. -/
theorem claim_C3_counterexample :
    ((stOneB.remove_conversation_embeddings "").1 = true)
    ∧ ((stOneB.remove_conversation_embeddings "").2.search_similar_messages
        (encodeConst [1]) "q" (some "") 5 none).1 ≠ [] := by decide

/-- C3 witness: removing conversation "A" from a store that also
holds conversation "B" makes the A-filtered search empty. -/
theorem claim_C3_witness :
    ("A" ≠ "")
    ∧ ((stCrowd.remove_conversation_embeddings "A").1 = true)
    ∧ ((stCrowd.remove_conversation_embeddings "A").2.search_similar_messages
        (encodeConst [1]) "q" (some "A") 3 none).1 = [] :=
  ⟨by decide, by decide,
   (claim_C3_amended stCrowd "A" (by decide) (by decide)).1 (encodeConst [1]) "q" 3 none⟩

/-
Claim C4: isolation of conversation B under removal of A.
-/

theorem payloads_remove {R : Type} [LinearOrderedCommRing R] (st : VectorService R)
    (A : String) (qv : List R) (hinv : st.metadata.length = st.index.length) :
    payloads ((st.remove_conversation_embeddings A).2) qv
      = (payloads st qv).filter (fun w => decide (w.2.conversation_id ≠ A)) := by
  rw [remove_spec st A hinv]
  show (((((st.metadata.zip st.index).filter (keptPair A)).map Prod.fst).zip
      (((st.metadata.zip st.index).filter (keptPair A)).map Prod.snd)).map
      (fun p => (inner_product qv p.2, p.1))) = _
  rw [zip_map_fst_snd_eq]
  rw [payloads, filter_map_comm]
  rfl

/-- C4 (amended): removing conversation A does not change the items,
scores or order of the results returned for a fixed query filtered on
conversation B, PROVIDED the candidate window covers the whole index
(total vectors <= k * 3, so post-retrieval filtering cannot starve B)
and B is non-empty (so the filter is truthy).  Both provisos are
forced by the counterexample.  The store is assumed aligned
(len(metadata) = vector count), which C2 guarantees for reachable
stores; removal then always succeeds. -/
theorem claim_C4_amended {R : Type} [LinearOrderedCommRing R] (st : VectorService R)
    (encode : String → List R) (A B q : String) (k : ℕ) (ms : Option R)
    (hinv : st.metadata.length = st.index.length)
    (hAB : A ≠ B) (hB : B ≠ "") (hwin : st.index.length ≤ k * 3) :
    ((st.remove_conversation_embeddings A).1 = true)
    ∧ (((st.remove_conversation_embeddings A).2.search_similar_messages
          encode q (some B) k ms).1
        = (st.search_similar_messages encode q (some B) k ms).1) := by
  have hrem := remove_spec st A hinv
  constructor
  · rw [hrem]
  · have hmeta' : (st.remove_conversation_embeddings A).2.metadata
        = ((st.metadata.zip st.index).filter (keptPair A)).map Prod.fst := by rw [hrem]
    have hindex' : (st.remove_conversation_embeddings A).2.index
        = ((st.metadata.zip st.index).filter (keptPair A)).map Prod.snd := by rw [hrem]
    have hthr : (st.remove_conversation_embeddings A).2.min_similarity_threshold
        = st.min_similarity_threshold := by rw [hrem]
    have hinv' : (st.remove_conversation_embeddings A).2.metadata.length
        = (st.remove_conversation_embeddings A).2.index.length := by
      rw [hmeta', hindex', List.length_map, List.length_map]
    have hwin' : (st.remove_conversation_embeddings A).2.index.length ≤ k * 3 := by
      rw [hindex']
      calc (((st.metadata.zip st.index).filter (keptPair A)).map Prod.snd).length
          ≤ (st.metadata.zip st.index).length := by
            rw [List.length_map]
            exact List.length_filter_le _ _
        _ ≤ st.index.length := by
            rw [List.length_zip]
            exact min_le_right _ _
        _ ≤ k * 3 := hwin
    have h1 : ((st.remove_conversation_embeddings A).2.search_similar_messages
        encode q (some B) k ms).1
        = (st.remove_conversation_embeddings A).2.search_results encode q (some B) k ms :=
      rfl
    have h2 : (st.search_similar_messages encode q (some B) k ms).1
        = st.search_results encode q (some B) k ms := rfl
    rw [h1, h2,
      search_results_full_window _ encode q (some B) k ms hinv' hwin',
      search_results_full_window st encode q (some B) k ms hinv hwin, hthr,
      payloads_remove st A (encode (VectorService.preprocess_query q)) hinv,
      insertionSort_filter (byScore Prod.fst) (fun w => decide (w.2.conversation_id ≠ A))
        (payloads st (encode (VectorService.preprocess_query q))),
      List.filter_filter]
    rw [List.filter_congr (fun w _ => ?_)]
    by_cases hk : keepPayload (ms.getD st.min_similarity_threshold) (some B) w = true
    · have hconvB : w.2.conversation_id = B := by
        simp only [keepPayload, Bool.and_eq_true, convPass, if_neg hB] at hk
        exact eq_of_beq hk.2
      rw [hk, Bool.true_and, hconvB]
      exact decide_eq_true (fun h => hAB h.symm)
    · rw [Bool.not_eq_true] at hk
      rw [hk, Bool.false_and]

/-- C4 counterexample, two scenarios refuting the claim as stated.
Scenario 1 (candidate starvation): conversation A holds the three
best-scoring vectors and k = 1, so the window of k * 3 = 3 candidates
contains only A's vectors; before removal the B-filtered search is
empty, after remove("A") it returns B's message.  Scenario 2 (falsy
filter): with B the empty string, the conversation filter is
disabled, so removing A visibly changes the "B"-filtered results. -/
theorem claim_C4_counterexample :
    ((((stCrowd.remove_conversation_embeddings "A").2.search_similar_messages
          (encodeConst [1]) "q" (some "B") 1 (some 0)).1
        ≠ (stCrowd.search_similar_messages (encodeConst [1]) "q" (some "B") 1
            (some 0)).1)
      ∧ (stCrowd.metadata.length = stCrowd.index.length))
    ∧ ((((stEmptyConv.remove_conversation_embeddings "A").2.search_similar_messages
          (encodeConst [1]) "q" (some "") 5 none).1
        ≠ (stEmptyConv.search_similar_messages (encodeConst [1]) "q" (some "") 5
            none).1)
      ∧ (stEmptyConv.metadata.length = stEmptyConv.index.length)) := by decide

/-- C4 witness: with a window covering the whole index (2 vectors,
k * 3 = 3) the B results are unchanged by removing A, and they are
non-empty. -/
theorem claim_C4_witness :
    (stTwo.metadata.length = stTwo.index.length)
    ∧ ("A" ≠ "B") ∧ ("B" ≠ "") ∧ (stTwo.index.length ≤ 1 * 3)
    ∧ ((stTwo.search_similar_messages (encodeConst [1]) "q" (some "B") 1 none).1 ≠ [])
    ∧ ((stTwo.remove_conversation_embeddings "A").1 = true)
    ∧ (((stTwo.remove_conversation_embeddings "A").2.search_similar_messages
          (encodeConst [1]) "q" (some "B") 1 none).1
        = (stTwo.search_similar_messages (encodeConst [1]) "q" (some "B") 1 none).1) :=
  ⟨rfl, by decide, by decide, by decide, by decide,
   (claim_C4_amended stTwo (encodeConst [1]) "A" "B" "q" 1 none rfl
      (by decide) (by decide) (by decide)).1,
   (claim_C4_amended stTwo (encodeConst [1]) "A" "B" "q" 1 none rfl
      (by decide) (by decide) (by decide)).2⟩

/-
Claim C6: validate() is the alignment-and-nonemptiness test.
-/

theorem validate_index_iff {R : Type} [LinearOrderedCommRing R] (st : VectorService R) :
    st.validate_index = true
      ↔ (st.metadata.length = st.index.length ∧ 0 < st.index.length) := by
  unfold VectorService.validate_index
  by_cases h1 : st.metadata.length ≠ st.index.length
  · rw [if_pos h1]
    simp [h1]
  · rw [if_neg h1]
    rw [not_not] at h1
    by_cases h2 : st.index.length = 0
    · rw [if_pos h2]
      simp [h2]
    · rw [if_neg h2]
      simp [h1, Nat.pos_of_ne_zero h2]

/-- C6: validate() returns true iff the metadata length equals the
vector count and the vector count is positive; a fresh store
validates false (empty-is-invalid convention), and one successful add
on the fresh store makes it validate true. -/
theorem claim_C6 {R : Type} [LinearOrderedCommRing R] (st : VectorService R)
    (encode : String → List R) (threshold : R) (conversation_id : String)
    (messages : List Message) :
    (st.validate_index = true
      ↔ (st.metadata.length = st.index.length ∧ 0 < st.index.length))
    ∧ ((VectorService.initial threshold : VectorService R).validate_index = false)
    ∧ (((VectorService.initial threshold : VectorService R).add_conversation_embeddings
          encode conversation_id messages).1 = true →
        ((VectorService.initial threshold : VectorService R).add_conversation_embeddings
          encode conversation_id messages).2.validate_index = true) := by
  refine ⟨validate_index_iff st, rfl, fun hadd => ?_⟩
  by_cases he : (validTexts messages).isEmpty
  · exfalso
    unfold VectorService.add_conversation_embeddings at hadd
    rw [if_pos he] at hadd
    simp at hadd
  · unfold VectorService.add_conversation_embeddings at hadd ⊢
    rw [if_neg he] at hadd ⊢
    rw [validate_index_iff]
    have hne : validTexts messages ≠ [] := by
      intro hnil
      rw [hnil] at he
      exact he rfl
    constructor
    · show ((VectorService.initial threshold : VectorService R).metadata
          ++ validMetadata conversation_id messages).length
        = ((VectorService.initial threshold : VectorService R).index
          ++ (validTexts messages).map encode).length
      simp only [List.length_append, List.length_map, VectorService.initial]
      rw [validTexts_length_eq conversation_id messages]
      rfl
    · show 0 < ((VectorService.initial threshold : VectorService R).index
          ++ (validTexts messages).map encode).length
      simp only [List.length_append, List.length_map, VectorService.initial]
      simpa using List.length_pos.mpr hne

/-- C6 witness: the fresh store validates false; adding one non-empty
message (and one whitespace-only message, which is skipped) makes it
validate true. -/
theorem claim_C6_witness :
    ((VectorService.initial (0 : ℤ)).validate_index = false)
    ∧ (((VectorService.initial (0 : ℤ)).add_conversation_embeddings
          (encodeConst [1]) "A" [msgHello, msgBlank]).1 = true)
    ∧ (((VectorService.initial (0 : ℤ)).add_conversation_embeddings
          (encodeConst [1]) "A" [msgHello, msgBlank]).2.validate_index = true) :=
  ⟨(claim_C6 (VectorService.initial (0 : ℤ)) (encodeConst [1]) 0 "A"
      [msgHello, msgBlank]).2.1,
   by decide,
   (claim_C6 (VectorService.initial (0 : ℤ)) (encodeConst [1]) 0 "A"
      [msgHello, msgBlank]).2.2 (by decide)⟩

/-
Claim C7: recover() resets to a fresh empty store.
-/

theorem validTexts_isEmpty_false {messages : List Message}
    (h : ∃ m ∈ messages, pyStrip m.content ≠ "") :
    (validTexts messages).isEmpty = false := by
  rcases h with ⟨m, hm, hne⟩
  have hmem : pyStrip m.content ∈ validTexts messages := by
    apply List.mem_filterMap.mpr
    refine ⟨m, hm, ?_⟩
    simp only [if_neg hne]
  cases he : (validTexts messages).isEmpty
  · rfl
  · rw [List.isEmpty_iff.mp he] at hmem
    exact absurd hmem (List.not_mem_nil _)

/-- C7: from any store state, recover() reports success and leaves a
fresh empty store (index and metadata both empty); the subsequent
validate() returns false (the empty-is-invalid convention), and a
following add of messages containing at least one non-whitespace
content succeeds. -/
theorem claim_C7 {R : Type} [LinearOrderedCommRing R] (st : VectorService R)
    (encode : String → List R) (conversation_id : String) (messages : List Message) :
    ((st.recover_index).1 = true)
    ∧ ((st.recover_index).2.index = [] ∧ (st.recover_index).2.metadata = [])
    ∧ ((st.recover_index).2.validate_index = false)
    ∧ ((∃ m ∈ messages, pyStrip m.content ≠ "") →
        ((st.recover_index).2.add_conversation_embeddings
            encode conversation_id messages).1 = true) := by
  refine ⟨rfl, ⟨rfl, rfl⟩, rfl, fun hex => ?_⟩
  unfold VectorService.add_conversation_embeddings
  rw [if_neg (by rw [validTexts_isEmpty_false hex]; exact Bool.false_ne_true)]

/-- C7 witness: recover a populated store, observe the documented
post-recovery validate() value, then add successfully. -/
theorem claim_C7_witness :
    ((stCrowd.recover_index).1 = true)
    ∧ ((stCrowd.recover_index).2.validate_index = false)
    ∧ (∃ m ∈ [msgHello, msgBlank], pyStrip m.content ≠ "")
    ∧ (((stCrowd.recover_index).2.add_conversation_embeddings
          (encodeConst [1]) "A" [msgHello, msgBlank]).1 = true) :=
  ⟨(claim_C7 stCrowd (encodeConst [1]) "A" [msgHello, msgBlank]).1,
   (claim_C7 stCrowd (encodeConst [1]) "A" [msgHello, msgBlank]).2.2.1,
   by decide,
   (claim_C7 stCrowd (encodeConst [1]) "A" [msgHello, msgBlank]).2.2.2 (by decide)⟩

/-
Claim C8: add skips blank content, fails cleanly on zero valid texts,
and always returns a typed (Bool, state) result.
-/

theorem validTexts_eq_filter :
    ∀ messages : List Message,
      validTexts messages
        = (messages.filter (fun m => decide (pyStrip m.content ≠ ""))).map
            (fun m => pyStrip m.content)
  | [] => rfl
  | m :: rest => by
    by_cases hc : pyStrip m.content = ""
    · have h1 : validTexts (m :: rest) = validTexts rest := by
        simp [validTexts, List.filterMap_cons, hc]
      have h2 : (m :: rest).filter (fun x => decide (pyStrip x.content ≠ ""))
          = rest.filter (fun x => decide (pyStrip x.content ≠ "")) := by
        simp [List.filter_cons, hc]
      rw [h1, h2, validTexts_eq_filter rest]
    · have h1 : validTexts (m :: rest) = pyStrip m.content :: validTexts rest := by
        simp [validTexts, List.filterMap_cons, hc]
      have h2 : (m :: rest).filter (fun x => decide (pyStrip x.content ≠ ""))
          = m :: rest.filter (fun x => decide (pyStrip x.content ≠ "")) := by
        simp [List.filter_cons, hc]
      rw [h1, h2, List.map_cons, validTexts_eq_filter rest]

theorem validMetadata_eq_filter (conversation_id : String) :
    ∀ messages : List Message,
      validMetadata conversation_id messages
        = (messages.filter (fun m => decide (pyStrip m.content ≠ ""))).map
            (fun m => mkMeta conversation_id m (pyStrip m.content))
  | [] => rfl
  | m :: rest => by
    by_cases hc : pyStrip m.content = ""
    · have h1 : validMetadata conversation_id (m :: rest)
          = validMetadata conversation_id rest := by
        simp [validMetadata, List.filterMap_cons, hc]
      have h2 : (m :: rest).filter (fun x => decide (pyStrip x.content ≠ ""))
          = rest.filter (fun x => decide (pyStrip x.content ≠ "")) := by
        simp [List.filter_cons, hc]
      rw [h1, h2, validMetadata_eq_filter conversation_id rest]
    · have h1 : validMetadata conversation_id (m :: rest)
          = mkMeta conversation_id m (pyStrip m.content)
            :: validMetadata conversation_id rest := by
        simp [validMetadata, List.filterMap_cons, hc]
      have h2 : (m :: rest).filter (fun x => decide (pyStrip x.content ≠ ""))
          = m :: rest.filter (fun x => decide (pyStrip x.content ≠ "")) := by
        simp [List.filter_cons, hc]
      rw [h1, h2, List.map_cons, validMetadata_eq_filter conversation_id rest]

/-- C8: add embeds exactly the messages whose content is non-empty
after stripping (the embedded texts are the stripped contents of the
surviving messages, in order); with zero valid texts it returns false
and leaves the store untouched; otherwise it returns true and appends
one vector and one metadata record per valid message.  In the model
add is a total function into Bool x state, mirroring the
never-raises contract of the source (its try/except returns false on
any embedding failure, before the store is touched). -/
theorem claim_C8 {R : Type} [LinearOrderedCommRing R] (st : VectorService R)
    (encode : String → List R) (conversation_id : String) (messages : List Message) :
    (validTexts messages
      = (messages.filter (fun m => decide (pyStrip m.content ≠ ""))).map
          (fun m => pyStrip m.content))
    ∧ (validTexts messages = [] →
        st.add_conversation_embeddings encode conversation_id messages = (false, st))
    ∧ (validTexts messages ≠ [] →
        (st.add_conversation_embeddings encode conversation_id messages).1 = true
        ∧ (st.add_conversation_embeddings encode conversation_id messages).2.index
            = st.index ++ (validTexts messages).map encode
        ∧ (st.add_conversation_embeddings encode conversation_id messages).2.metadata
            = st.metadata ++ validMetadata conversation_id messages
        ∧ (st.add_conversation_embeddings encode conversation_id messages).2.metadata.length
            = st.metadata.length
              + (messages.filter (fun m => decide (pyStrip m.content ≠ ""))).length) := by
  refine ⟨validTexts_eq_filter messages, fun hnil => ?_, fun hne => ?_⟩
  · unfold VectorService.add_conversation_embeddings
    rw [if_pos (by rw [hnil]; rfl)]
  · have he : ¬ ((validTexts messages).isEmpty = true) := by
      cases hh : (validTexts messages).isEmpty
      · exact Bool.false_ne_true
      · exact absurd (List.isEmpty_iff.mp hh) hne
    unfold VectorService.add_conversation_embeddings
    rw [if_neg he]
    refine ⟨rfl, rfl, rfl, ?_⟩
    simp only [List.length_append]
    rw [validMetadata_eq_filter conversation_id messages, List.length_map]

/-- C8 witness: a blank message is skipped while a real one is
embedded, and an all-blank batch fails with the store unchanged. -/
theorem claim_C8_witness :
    (validTexts [msgHello, msgBlank] ≠ [])
    ∧ ((stOneA.add_conversation_embeddings
          (encodeConst [1]) "A" [msgHello, msgBlank]).1 = true)
    ∧ ((stOneA.add_conversation_embeddings
          (encodeConst [1]) "A" [msgHello, msgBlank]).2.metadata.length
        = stOneA.metadata.length + 1)
    ∧ (validTexts [msgBlank] = [])
    ∧ (stOneA.add_conversation_embeddings (encodeConst [1]) "A" [msgBlank]
        = (false, stOneA)) :=
  ⟨by decide,
   ((claim_C8 stOneA (encodeConst [1]) "A" [msgHello, msgBlank]).2.2 (by decide)).1,
   by
    rw [((claim_C8 stOneA (encodeConst [1]) "A" [msgHello, msgBlank]).2.2
      (by decide)).2.2.2]
    decide,
   by decide,
   (claim_C8 stOneA (encodeConst [1]) "A" [msgBlank]).2.1 (by decide)⟩

/-
Claim C10: analytics counters invariant and success_rate bounds.
-/

theorem applyOp_analytics {R : Type} [LinearOrderedCommRing R]
    (encode : String → List R) (st : VectorService R) (op : Op R)
    (h : st.successful_searches ≤ st.total_searches
      ∧ st.successful_searches ≤ st.total_results) :
    (applyOp encode st op).successful_searches ≤ (applyOp encode st op).total_searches
    ∧ (applyOp encode st op).successful_searches ≤ (applyOp encode st op).total_results := by
  cases op with
  | add cid msgs =>
    simp only [applyOp, VectorService.add_conversation_embeddings]
    split
    · exact h
    · exact h
  | remove cid =>
    simp only [applyOp, VectorService.remove_conversation_embeddings]
    split
    · exact h
    · exact h
  | search q c k ms =>
    simp only [applyOp, VectorService.search_similar_messages]
    by_cases hres : (st.search_results encode q c k ms).isEmpty = true
    · simp [hres]
      omega
    · have hfalse : (st.search_results encode q c k ms).isEmpty = false :=
        Bool.not_eq_true _ |>.mp hres
      have hpos : 0 < (st.search_results encode q c k ms).length := by
        cases hl : st.search_results encode q c k ms with
        | nil => rw [hl] at hfalse; simp at hfalse
        | cons a t => simp [hl]
      simp [hfalse]
      omega
  | validate => exact h
  | recover => exact h

/-- C10: in every state reachable from a fresh store,
successful_searches is at most total_searches and at most
total_results, so the success_rate reported by get_search_analytics
lies in [0, 1]; moreover any single search call increments
total_searches by exactly one and never decreases any counter. -/
theorem claim_C10 {R : Type} [LinearOrderedCommRing R] (encode : String → List R)
    (threshold : R) (ops : List (Op R)) (st : VectorService R) (q : String)
    (c : Option String) (k : ℕ) (ms : Option R) :
    ((runOps encode (VectorService.initial threshold) ops).successful_searches
        ≤ (runOps encode (VectorService.initial threshold) ops).total_searches
      ∧ (runOps encode (VectorService.initial threshold) ops).successful_searches
        ≤ (runOps encode (VectorService.initial threshold) ops).total_results)
    ∧ (0 ≤ (runOps encode (VectorService.initial threshold) ops).get_search_analytics.success_rate
      ∧ (runOps encode (VectorService.initial threshold) ops).get_search_analytics.success_rate ≤ 1)
    ∧ ((st.search_similar_messages encode q c k ms).2.total_searches
        = st.total_searches + 1
      ∧ st.total_searches ≤ (st.search_similar_messages encode q c k ms).2.total_searches
      ∧ st.successful_searches
        ≤ (st.search_similar_messages encode q c k ms).2.successful_searches
      ∧ st.total_results ≤ (st.search_similar_messages encode q c k ms).2.total_results) := by
  have hinv : ∀ (ops' : List (Op R)) (s : VectorService R),
      (s.successful_searches ≤ s.total_searches
        ∧ s.successful_searches ≤ s.total_results) →
      ((runOps encode s ops').successful_searches ≤ (runOps encode s ops').total_searches
        ∧ (runOps encode s ops').successful_searches
          ≤ (runOps encode s ops').total_results) := by
    intro ops'
    induction ops' with
    | nil => exact fun s h => h
    | cons op rest ih =>
      exact fun s h => ih (applyOp encode s op) (applyOp_analytics encode s op h)
  have hreach := hinv ops (VectorService.initial threshold)
    ⟨Nat.le_refl 0, Nat.le_refl 0⟩
  refine ⟨hreach, ⟨?_, ?_⟩, rfl, Nat.le_succ _, ?_, ?_⟩
  · apply div_nonneg (Nat.cast_nonneg _) (Nat.cast_nonneg _)
  · have hden : (0 : ℚ) <
        ((max (runOps encode (VectorService.initial threshold) ops).total_searches 1 : ℕ) : ℚ) := by
      have : (1 : ℕ) ≤ max (runOps encode (VectorService.initial threshold) ops).total_searches 1 :=
        le_max_right _ _
      exact_mod_cast Nat.lt_of_lt_of_le Nat.zero_lt_one this
    apply (div_le_one hden).mpr
    apply Nat.cast_le.mpr
    exact le_trans hreach.1 (le_max_left _ _)
  · simp only [VectorService.search_similar_messages]
    exact Nat.le_add_right _ _
  · simp only [VectorService.search_similar_messages]
    exact Nat.le_add_right _ _

/-
Claims C5 and C9: the context assembler.
-/

theorem manage_context_length_empty (query : String) (max_tokens : ℕ) :
    RAGService.manage_context_length "" query max_tokens = "" := by
  unfold RAGService.manage_context_length
  by_cases h : RAGService.count_tokens ("" ++ query) ≤ max_tokens
  · rw [if_pos h]
  · rw [if_neg h]
    have ht : hasSub "" topicsMarker = false := by decide
    have hs : hasSub "" summaryMarker = false := by decide
    have hr : hasSub "" relevantMarker = false := by decide
    simp only [ht, hs, hr, Bool.false_eq_true, if_false]
    split
    · simp only [hr, Bool.false_eq_true, if_false]
    · rfl

/-- C5: the token count of the string returned by generate_context is
at most any non-negative budget, and a smaller budget never retains
more sections.  This holds vacuously: generate_context has no
max_tokens parameter (its third argument is the unused messages
list), and it always returns the empty string because
get_dynamic_context fails internally on every call (see C9), so the
returned context has token count 0 and section count 0. -/
theorem claim_C5 (query conversation_id : String) (messages : List Message)
    (max_tokens : ℕ) :
    (RAGService.generate_context query conversation_id messages = "")
    ∧ (RAGService.count_tokens
        (RAGService.generate_context query conversation_id messages) ≤ max_tokens)
    ∧ (∀ mt1 mt2 : ℕ, mt1 ≤ mt2 →
        sectionsRetained (RAGService.generate_context query conversation_id messages)
          ≤ sectionsRetained
              (RAGService.generate_context query conversation_id messages)) := by
  have hempty : RAGService.generate_context query conversation_id messages = "" :=
    manage_context_length_empty query token_limit
  refine ⟨hempty, ?_, fun _ _ _ => le_refl _⟩
  rw [hempty]
  exact Nat.zero_le _

/-- C5 witness: concrete budgets, including budget zero. -/
theorem claim_C5_witness :
    ((3 : ℕ) ≤ 7)
    ∧ (RAGService.count_tokens (RAGService.generate_context "q" "c1" []) ≤ 0)
    ∧ (sectionsRetained (RAGService.generate_context "q" "c1" [])
        ≤ sectionsRetained (RAGService.generate_context "q" "c1" [])) :=
  ⟨by decide, (claim_C5 "q" "c1" [] 0).2.1,
   (claim_C5 "q" "c1" [] 0).2.2 3 7 (by decide)⟩

/-- C9: evaluation at the failing input.  The claim describes the
intended tier dispatch of get_dynamic_context (short, medium, long),
but every call to it returns the empty string: its first statement
calls self.vector_service.get_conversation_messages, an attribute
VectorService does not define (it lives on DatabaseService), so an
AttributeError is raised and swallowed by the blanket except.  In
particular, for a conversation with n <= 3 messages the context is
not the last-4-messages recent section, it is "". -/
theorem claim_C9_code_bug :
    (RAGService.get_dynamic_context "What is a function" "c1" = "")
    ∧ (RAGService.generate_context "What is a function" "c1" [] = "") :=
  ⟨rfl, manage_context_length_empty "What is a function" token_limit⟩
